import Mathlib

set_option maxRecDepth 8000

/-!
A shallow embedding of the credit-risk dashboard pipeline (`model.py`).

Numeric columns are modelled over `ℚ`; the `pd.cut` missing category is
modelled by `Option Level`, with `none` for an unclassified score.
-/

namespace CreditRisk

/-- Risk tier labels, the `labels=["Low", "Medium", "High"]` of `pd.cut`. -/
inductive Level where
  | Low
  | Medium
  | High
deriving DecidableEq, Fintype

/-- One input row: columns `age`, `income`, `loan_amount`, optional `region`. -/
structure Row where
  age : ℚ
  income : ℚ
  loan_amount : ℚ
  region : Option String := none
deriving DecidableEq

/-- `required_cols = ["age", "income", "loan_amount"]` (line 23). -/
def required_cols : List String := ["age", "income", "loan_amount"]

/-- The missing-column report of line 26:
`[col for col in required_cols if col not in df.columns]`. -/
def missingCols (cols : List String) : List String :=
  required_cols.filter (fun c => !cols.contains c)

/-- Maximum of two rationals, written out so that the kernel can evaluate it. -/
def rmax (x y : ℚ) : ℚ :=
  if x ≤ y then y else x

/-- Minimum of two rationals, written out so that the kernel can evaluate it. -/
def rmin (x y : ℚ) : ℚ :=
  if x ≤ y then x else y

/-- `np.clip(x, lo, hi) = min (max x lo) hi` (line 30). -/
def np_clip (x lo hi : ℚ) : ℚ :=
  rmin (rmax x lo) hi

theorem rmax_eq_max (x y : ℚ) : rmax x y = max x y :=
  (max_def x y).symm

theorem rmin_eq_min (x y : ℚ) : rmin x y = min x y :=
  (min_def x y).symm

theorem np_clip_eq (x lo hi : ℚ) : np_clip x lo hi = min (max x lo) hi := by
  rw [np_clip, rmax_eq_max, rmin_eq_min]

/-- `pd.cut(s, bins=[0, 0.3, 0.7, 1], labels=["Low", "Medium", "High"])`
applied to one value (lines 33-34): bins are left-open right-closed
intervals, and a value outside every bin gets a missing category (`none`). -/
def risk_level (s : ℚ) : Option Level :=
  if 0 < s ∧ s ≤ 3/10 then some Level.Low
  else if 3/10 < s ∧ s ≤ 7/10 then some Level.Medium
  else if 7/10 < s ∧ s ≤ 1 then some Level.High
  else none

/-- A row after feature engineering (lines 29-34): the original columns plus
the three derived columns. -/
structure ScoredRow where
  base : Row
  income_to_loan_ratio : ℚ
  risk_score : ℚ
  risk_level : Option Level
deriving DecidableEq

/-- Lines 29-34 applied to one row:
`ratio = income / loan_amount`,
`risk_score = np.clip(ratio * 0.3 + age * 0.01, 0, 1)`,
`risk_level = pd.cut(risk_score, ...)`. -/
def scoreRow (r : Row) : ScoredRow :=
  let ratio := r.income / r.loan_amount
  let s := np_clip (ratio * (3/10) + r.age * (1/100)) 0 1
  { base := r
    income_to_loan_ratio := ratio
    risk_score := s
    risk_level := risk_level s }

/-- The scoring step over the whole dataframe, row by row. -/
def score (rows : List Row) : List ScoredRow :=
  rows.map scoreRow

/-- The guarded part of the app (lines 24-34): when a required column is
missing, the error message reports the missing names and nothing is scored;
otherwise the dataset is scored. -/
def processUpload (cols : List String) (rows : List Row) :
    Except (List String) (List ScoredRow) :=
  if required_cols.all (fun c => cols.contains c) then Except.ok (score rows)
  else Except.error (missingCols cols)

/-- The label strings that `pd.cut` attaches to the three tiers. -/
def levelLabel : Level → String
  | Level.Low => "Low"
  | Level.Medium => "Medium"
  | Level.High => "High"

/-- One entry of `df["risk_level"] == s`: a missing category compares
unequal to every label (pandas `NaN == s` is `False`). -/
def levelMatches (lvl : Option Level) (s : String) : Bool :=
  match lvl with
  | some l => levelLabel l == s
  | none => false

/-- Lines 61-62: with a concrete level selected,
`filtered_df = df[df["risk_level"] == selected_level]`; with `"All"`
selected no filter is applied and the full dataframe is shown. -/
def filterByLevel (rows : List ScoredRow) (selected : String) : List ScoredRow :=
  if selected = "All" then rows
  else rows.filter (fun r => levelMatches r.risk_level selected)

/-- The sort key of line 68: comparison of two rows by `risk_score`. -/
def byScore (a b : ScoredRow) : Prop :=
  a.risk_score ≤ b.risk_score

instance : DecidableRel byScore :=
  fun a b => inferInstanceAs (Decidable (a.risk_score ≤ b.risk_score))

instance : IsTotal ScoredRow byScore :=
  ⟨fun a b => le_total a.risk_score b.risk_score⟩

instance : IsTrans ScoredRow byScore :=
  ⟨fun _ _ _ hab hbc => le_trans hab hbc⟩

/-- `df.sort_values(by="risk_score", ascending=False)` (line 68): pandas
`nargsort` argsorts the key column ascending (numpy's introsort runs its
stable insertion sort on small arrays) and then reverses the whole indexer
when `ascending=False`, so equal keys come out in reversed input order. -/
def sort_values_desc (rows : List ScoredRow) : List ScoredRow :=
  (List.insertionSort byScore rows).reverse

/-- `df.sort_values(by="risk_score", ascending=False).head(n)` (line 68),
the source's fixed `n = 5` generalised to a parameter. -/
def top_risk (rows : List ScoredRow) (n : Nat) : List ScoredRow :=
  (sort_values_desc rows).take n

/-- Line 76: `"Review manually" if borrower["risk_level"] == "High" else
"Likely Approve"`; a missing category compares unequal to `"High"`. -/
def recommendation (lvl : Option Level) : String :=
  if levelMatches lvl "High" then "Review manually" else "Likely Approve"

/-- The region values present in the dataset; `groupby` drops rows whose
key is missing. -/
def regionValues (rows : List ScoredRow) : List String :=
  rows.filterMap (fun r => r.base.region)

/-- The distinct group keys of `df.groupby("region")` (line 83), in sorted
order (`groupby` sorts its keys by default). -/
def groupKeys (rows : List ScoredRow) : List String :=
  List.insertionSort (fun a b => a ≤ b) (regionValues rows).dedup

/-- The rows of the `groupby` group with key `k`. -/
def groupRows (rows : List ScoredRow) (k : String) : List ScoredRow :=
  rows.filter (fun r => r.base.region == some k)

/-- One output row of the aggregation of lines 83-87. -/
structure RegionRow where
  region : String
  total_borrowers : Nat
  avg_risk_score : ℚ
  high_risk_pct : ℚ
deriving DecidableEq

/-- Lines 84-86 for one group:
`total_borrowers = ("risk_score", "count")`,
`avg_risk_score = ("risk_score", "mean")`,
`high_risk_pct = ("risk_level", lambda x: (x == "High").mean())`. -/
def aggRegion (rows : List ScoredRow) (k : String) : RegionRow :=
  let g := groupRows rows k
  { region := k
    total_borrowers := g.length
    avg_risk_score := (g.map (fun r => r.risk_score)).sum / (g.length : ℚ)
    high_risk_pct :=
      ((g.filter (fun r => levelMatches r.risk_level "High")).length : ℚ) /
        (g.length : ℚ) }

/-- `region_summary` (lines 83-87): one aggregated row per distinct region
key. -/
def region_summary (rows : List ScoredRow) : List RegionRow :=
  (groupKeys rows).map (aggRegion rows)

/-- An input row that ties with `tieRowB` on `risk_score` (both rows score
`0.45`) and differs from it only in `region`. -/
def tieRowA : Row :=
  { age := 30, income := 1000, loan_amount := 2000, region := some "A" }

/-- The second row of the tie pair. -/
def tieRowB : Row :=
  { age := 30, income := 1000, loan_amount := 2000, region := some "B" }

/-- First scored row of the regional scenario: region Accra, score 0.8. -/
def accraHigh : ScoredRow :=
  { base := { age := 0, income := 0, loan_amount := 1, region := some "Accra" }
    income_to_loan_ratio := 0
    risk_score := 8/10
    risk_level := risk_level (8/10) }

/-- Second scored row of the regional scenario: region Accra, score 0.2. -/
def accraLow : ScoredRow :=
  { base := { age := 0, income := 0, loan_amount := 1, region := some "Accra" }
    income_to_loan_ratio := 0
    risk_score := 2/10
    risk_level := risk_level (2/10) }

/-- Third scored row of the regional scenario: region Kumasi, score 0.9. -/
def kumasiHigh : ScoredRow :=
  { base := { age := 0, income := 0, loan_amount := 1, region := some "Kumasi" }
    income_to_loan_ratio := 0
    risk_score := 9/10
    risk_level := risk_level (9/10) }

/-- C1: for every record (with a nonzero loan amount, so that the ratio is
the actual division), scoring computes `income_to_loan_ratio =
income / loan_amount` and `risk_score = clamp(ratio * 0.3 + age * 0.01, 0, 1)`;
on the record `{age: 30, income: 1000, loan_amount: 2000}` this yields ratio
`0.5`, score `0.45`, and level `Medium`. -/
theorem C1_score_formula :
    (∀ r : Row, r.loan_amount ≠ 0 →
      ScoredRow.income_to_loan_ratio (scoreRow r) = r.income / r.loan_amount ∧
      ScoredRow.risk_score (scoreRow r) =
        np_clip (r.income / r.loan_amount * (3/10) + r.age * (1/100)) 0 1 ∧
      ScoredRow.risk_level (scoreRow r) =
        risk_level (np_clip (r.income / r.loan_amount * (3/10) + r.age * (1/100)) 0 1)) ∧
    ScoredRow.income_to_loan_ratio
      (scoreRow { age := 30, income := 1000, loan_amount := 2000 }) = 1/2 ∧
    ScoredRow.risk_score
      (scoreRow { age := 30, income := 1000, loan_amount := 2000 }) = 45/100 ∧
    ScoredRow.risk_level
      (scoreRow { age := 30, income := 1000, loan_amount := 2000 }) = some Level.Medium := by
  refine ⟨fun r _ => ⟨rfl, rfl, rfl⟩, ?_, ?_, ?_⟩ <;> with_unfolding_all decide

/-- Witness for C1 at the scenario record. -/
theorem C1_score_formula_witness :
    ScoredRow.risk_score (scoreRow { age := 30, income := 1000, loan_amount := 2000 }) =
      np_clip ((1000 : ℚ) / 2000 * (3/10) + 30 * (1/100)) 0 1 :=
  ((C1_score_formula.1 { age := 30, income := 1000, loan_amount := 2000 }
    (by norm_num)).2).1

/-- C2: for every score value, the level is `Low` iff the score is in
`(0, 0.3]`, `Medium` iff in `(0.3, 0.7]`, `High` iff in `(0.7, 1]`; a score
of exactly `0` falls outside every bin and gets the missing category. -/
theorem C2_risk_level_bins :
    (∀ s : ℚ,
      (risk_level s = some Level.Low ↔ 0 < s ∧ s ≤ 3/10) ∧
      (risk_level s = some Level.Medium ↔ 3/10 < s ∧ s ≤ 7/10) ∧
      (risk_level s = some Level.High ↔ 7/10 < s ∧ s ≤ 1)) ∧
    risk_level 0 = none := by
  constructor
  · intro s
    unfold risk_level
    split_ifs with h1 h2 h3
    · exact ⟨iff_of_true rfl h1,
        iff_of_false (by simp) (fun h => absurd h1.2 (not_le.2 h.1)),
        iff_of_false (by simp)
          (fun h => absurd h1.2 (not_le.2 (lt_trans (by norm_num) h.1)))⟩
    · exact ⟨iff_of_false (by simp) h1, iff_of_true rfl h2,
        iff_of_false (by simp) (fun h => absurd h2.2 (not_le.2 h.1))⟩
    · exact ⟨iff_of_false (by simp) h1, iff_of_false (by simp) h2,
        iff_of_true rfl h3⟩
    · exact ⟨iff_of_false (by simp) h1, iff_of_false (by simp) h2,
        iff_of_false (by simp) h3⟩
  · norm_num [risk_level]

/-- C3: for any rational age and ratio the clipped score lies in `[0, 1]`;
a raw value below `0` clamps to `0` and one above `1` clamps to `1`, and
consequently every scored row's `risk_score` is in `[0, 1]`. -/
theorem C3_score_clamped :
    (∀ r : Row,
      0 ≤ ScoredRow.risk_score (scoreRow r) ∧ ScoredRow.risk_score (scoreRow r) ≤ 1) ∧
    (∀ age ratio : ℚ,
      (0 ≤ np_clip (ratio * (3/10) + age * (1/100)) 0 1 ∧
        np_clip (ratio * (3/10) + age * (1/100)) 0 1 ≤ 1) ∧
      (ratio * (3/10) + age * (1/100) < 0 →
        np_clip (ratio * (3/10) + age * (1/100)) 0 1 = 0) ∧
      (1 < ratio * (3/10) + age * (1/100) →
        np_clip (ratio * (3/10) + age * (1/100)) 0 1 = 1)) := by
  have hmem : ∀ x : ℚ, 0 ≤ np_clip x 0 1 ∧ np_clip x 0 1 ≤ 1 := by
    intro x
    rw [np_clip_eq]
    exact ⟨le_min (le_max_right x 0) zero_le_one, min_le_right _ _⟩
  have hlo : ∀ x : ℚ, x < 0 → np_clip x 0 1 = 0 := by
    intro x hx
    rw [np_clip_eq, max_eq_right hx.le, min_eq_left zero_le_one]
  have hhi : ∀ x : ℚ, 1 < x → np_clip x 0 1 = 1 := by
    intro x hx
    rw [np_clip_eq, max_eq_left (zero_le_one.trans hx.le), min_eq_right hx.le]
  exact ⟨fun r => hmem _, fun age ratio =>
    ⟨hmem _, fun h => hlo _ h, fun h => hhi _ h⟩⟩

/-- Witness for C3 at a large negative and a large positive raw score. -/
theorem C3_score_clamped_witness :
    np_clip ((-10 : ℚ) * (3/10) + 0 * (1/100)) 0 1 = 0 ∧
    np_clip ((10 : ℚ) * (3/10) + 0 * (1/100)) 0 1 = 1 :=
  ⟨(C3_score_clamped.2 0 (-10)).2.1 (by norm_num),
   (C3_score_clamped.2 0 10).2.2 (by norm_num)⟩

theorem all_iff_filter_not_nil (l : List String) (p : String → Bool) :
    l.all p = true ↔ l.filter (fun c => !p c) = [] := by
  induction l with
  | nil => simp
  | cons a t ih => cases h : p a <;> simp [List.all_cons, List.filter_cons, h, ih]

theorem all_required_iff_no_missing (cols : List String) :
    required_cols.all (fun c => cols.contains c) = true ↔ missingCols cols = [] :=
  all_iff_filter_not_nil required_cols (fun c => cols.contains c)

/-- C4: when any required column is missing, the upload fails with exactly
the list of missing required column names, and no scored dataset is
produced. -/
theorem C4_missing_columns (cols : List String) (rows : List Row)
    (h : missingCols cols ≠ []) :
    processUpload cols rows = Except.error (missingCols cols) ∧
    ∀ out, processUpload cols rows ≠ Except.ok out := by
  have hall : ¬ required_cols.all (fun c => cols.contains c) = true :=
    fun hc => h ((all_required_iff_no_missing cols).1 hc)
  unfold processUpload
  rw [if_neg hall]
  exact ⟨rfl, fun out hk => by simp at hk⟩

/-- Witness for C4: a file with only `age` and `loan_amount` is rejected
reporting `["income"]`, with no scoring performed. -/
theorem C4_missing_columns_witness :
    processUpload ["age", "loan_amount"] [] = Except.error ["income"] ∧
    ∀ out, processUpload ["age", "loan_amount"] [] ≠ Except.ok out := by
  have h := C4_missing_columns ["age", "loan_amount"] [] (by decide)
  have e : missingCols ["age", "loan_amount"] = ["income"] := by decide
  exact ⟨e ▸ h.1, h.2⟩

/-- C7: scoring keeps the row count and the row order, leaves every original
field of every row unchanged (the whole input row is the `base` of the
scored row), and adds exactly the three derived fields. -/
theorem C7_frame_preserved (rows : List Row) :
    (score rows).length = rows.length ∧
    (∀ i : Fin rows.length,
      (score rows).get (Fin.cast (by simp [score]) i) = scoreRow (rows.get i)) ∧
    (∀ r : Row, (scoreRow r).base = r) := by
  refine ⟨by simp [score], fun i => ?_, fun r => rfl⟩
  simp [score]

/-- C8: selecting "All" returns the dataset unchanged; selecting a level
returns exactly the rows whose `risk_level` matches it, in order; a label
matching no row returns the empty list, and no error is possible. -/
theorem C8_filter_by_level (rows : List ScoredRow) (s : String) :
    filterByLevel rows "All" = rows ∧
    (s ≠ "All" →
      filterByLevel rows s = rows.filter (fun r => levelMatches r.risk_level s) ∧
      ∀ r : ScoredRow,
        r ∈ filterByLevel rows s ↔ r ∈ rows ∧ levelMatches r.risk_level s = true) ∧
    ((∀ l : Level, s ≠ levelLabel l) → s ≠ "All" → filterByLevel rows s = []) := by
  refine ⟨by simp [filterByLevel], fun hs => ?_, fun hl hs => ?_⟩
  · rw [filterByLevel, if_neg hs]
    exact ⟨rfl, fun r => List.mem_filter⟩
  · rw [filterByLevel, if_neg hs]
    apply List.filter_eq_nil_iff.2
    intro r _
    cases hr : r.risk_level with
    | none => simp [levelMatches, hr]
    | some l =>
        simp only [levelMatches, hr, beq_iff_eq]
        exact fun he => hl l he.symm

/-- Witness for C8: filtering three scored rows by the level `High` keeps
exactly the two high rows, and an unknown label yields the empty list. -/
theorem C8_filter_by_level_witness :
    filterByLevel [accraHigh, accraLow, kumasiHigh] "High" =
      List.filter (fun r => levelMatches r.risk_level "High")
        [accraHigh, accraLow, kumasiHigh] ∧
    filterByLevel [accraHigh, accraLow, kumasiHigh] "Banana" = [] := by
  have hHigh := C8_filter_by_level [accraHigh, accraLow, kumasiHigh] "High"
  have hBanana := C8_filter_by_level [accraHigh, accraLow, kumasiHigh] "Banana"
  exact ⟨(hHigh.2.1 (by decide)).1, hBanana.2.2 (by decide) (by decide)⟩

/-- C10: the recommendation is `"Review manually"` exactly when the level is
`High`; every other value, including the missing category of an exactly-zero
score, yields `"Likely Approve"`. -/
theorem C10_recommend_missing_level :
    recommendation none = "Likely Approve" ∧
    (∀ lvl : Option Level,
      recommendation lvl = "Review manually" ↔ lvl = some Level.High) ∧
    (∀ lvl : Option Level,
      lvl ≠ some Level.High → recommendation lvl = "Likely Approve") ∧
    recommendation (risk_level 0) = "Likely Approve" := by
  have h0 : risk_level (0 : ℚ) = none := by norm_num [risk_level]
  refine ⟨rfl, fun lvl => ?_, fun lvl h => ?_, by rw [h0]; rfl⟩
  · cases lvl with
    | none => simp [recommendation, levelMatches]
    | some l => cases l <;> simp [recommendation, levelMatches, levelLabel]
  · cases lvl with
    | none => rfl
    | some l =>
      cases l with
      | Low => rfl
      | Medium => rfl
      | High => exact absurd rfl h

/-- Witness for C10 at the level `Low`. -/
theorem C10_recommend_missing_level_witness :
    recommendation (some Level.Low) = "Likely Approve" :=
  C10_recommend_missing_level.2.2.1 (some Level.Low) (by decide)

theorem perm_sort_values_desc (rows : List ScoredRow) :
    (sort_values_desc rows).Perm rows :=
  (List.reverse_perm _).trans (List.perm_insertionSort byScore rows)

theorem sorted_sort_values_desc (rows : List ScoredRow) :
    (sort_values_desc rows).Pairwise
      (fun a b => ScoredRow.risk_score b ≤ ScoredRow.risk_score a) :=
  List.pairwise_reverse.2 (List.sorted_insertionSort byScore rows)

theorem top_risk_sorted_desc (rows : List ScoredRow) (n : Nat) :
    (top_risk rows n).Pairwise
      (fun a b => ScoredRow.risk_score b ≤ ScoredRow.risk_score a) :=
  List.Pairwise.sublist (List.take_sublist n _) (sorted_sort_values_desc rows)

theorem top_risk_length (rows : List ScoredRow) (n : Nat) :
    (top_risk rows n).length = min n rows.length := by
  unfold top_risk
  rw [List.length_take, (perm_sort_values_desc rows).length_eq]

/-- C5 counterexample: the rows `tieRowA` and `tieRowB` score equally and
differ only in `region`; the top-risk view emits them in reversed input
order, so the claimed stable tie-breaking (equal scores keep input order)
fails. -/
theorem C5_counterexample :
    scoreRow tieRowA ≠ scoreRow tieRowB ∧
    ScoredRow.risk_score (scoreRow tieRowA) = ScoredRow.risk_score (scoreRow tieRowB) ∧
    top_risk (score [tieRowA, tieRowB]) 5 = [scoreRow tieRowB, scoreRow tieRowA] ∧
    top_risk (score [tieRowA, tieRowB]) 5 ≠ score [tieRowA, tieRowB] := by
  refine ⟨?_, ?_, ?_, ?_⟩ <;> with_unfolding_all decide

/-- C5 amended: `top_risk rows n` is sorted by `risk_score` descending and
has length `min n rows.length`; when the dataset has at most `n` rows it
returns all rows, but only as a permutation — equal scores come out in
reversed input order, not in input order. -/
theorem C5_top_risk_sorted_truncated (rows : List ScoredRow) (n : Nat) :
    (top_risk rows n).Pairwise
      (fun a b => ScoredRow.risk_score b ≤ ScoredRow.risk_score a) ∧
    (top_risk rows n).length = min n rows.length ∧
    (rows.length ≤ n → (top_risk rows n).Perm rows) := by
  refine ⟨top_risk_sorted_desc rows n, top_risk_length rows n, fun h => ?_⟩
  unfold top_risk
  rw [List.take_of_length_le (by rw [(perm_sort_values_desc rows).length_eq]; exact h)]
  exact perm_sort_values_desc rows

/-- Witness for C5 on the two-row tie dataset with `n = 5`. -/
theorem C5_top_risk_sorted_truncated_witness :
    (top_risk (score [tieRowA, tieRowB]) 5).Pairwise
      (fun a b => ScoredRow.risk_score b ≤ ScoredRow.risk_score a) ∧
    (top_risk (score [tieRowA, tieRowB]) 5).length = min 5 (score [tieRowA, tieRowB]).length ∧
    (top_risk (score [tieRowA, tieRowB]) 5).Perm (score [tieRowA, tieRowB]) := by
  have h := C5_top_risk_sorted_truncated (score [tieRowA, tieRowB]) 5
  exact ⟨h.1, h.2.1, h.2.2 (by simp [score])⟩

theorem orderedInsert_of_forall_not (a : ScoredRow) (m : List ScoredRow)
    (h : ∀ b ∈ m, ¬ byScore a b) :
    m.orderedInsert byScore a = m ++ [a] := by
  induction m with
  | nil => rfl
  | cons b t ih =>
    rw [List.orderedInsert, if_neg (h b (List.mem_cons_self b t)), List.cons_append]
    rw [ih (fun x hx => h x (List.mem_cons_of_mem b hx))]

theorem insertionSort_of_strict_desc (l : List ScoredRow)
    (h : l.Pairwise (fun a b => ScoredRow.risk_score b < ScoredRow.risk_score a)) :
    List.insertionSort byScore l = l.reverse := by
  induction l with
  | nil => rfl
  | cons a t ih =>
    have hpc := List.pairwise_cons.1 h
    rw [List.insertionSort, ih hpc.2, List.reverse_cons]
    apply orderedInsert_of_forall_not
    intro b hb
    exact not_le.2 (hpc.1 b (List.mem_reverse.1 hb))

/-- C9 counterexample: on the two-row tie dataset the top-risk output has
length 2, yet reapplying `top_risk` with `n' = 2` to that output returns the
two rows in the opposite order, so idempotence fails. -/
theorem C9_counterexample :
    (top_risk (score [tieRowA, tieRowB]) 5).length ≤ 2 ∧
    top_risk (top_risk (score [tieRowA, tieRowB]) 5) 2 ≠
      top_risk (score [tieRowA, tieRowB]) 5 := by
  refine ⟨?_, ?_⟩ <;> with_unfolding_all decide

/-- C9 amended: when the dataset's risk scores are pairwise distinct (no
ties), reapplying `top_risk` to its own output with any `n'` at least the
output length returns the same rows in the same order; with ties the re-sort
reverses runs of equal scores, as the counterexample shows. -/
theorem C9_top_risk_idempotent (rows : List ScoredRow) (n n' : Nat)
    (hd : rows.Pairwise
      (fun a b => ScoredRow.risk_score a ≠ ScoredRow.risk_score b))
    (hn : (top_risk rows n).length ≤ n') :
    top_risk (top_risk rows n) n' = top_risk rows n := by
  have hsorted := top_risk_sorted_desc rows n
  have hne : (top_risk rows n).Pairwise
      (fun a b => ScoredRow.risk_score a ≠ ScoredRow.risk_score b) := by
    have h1 : (sort_values_desc rows).Pairwise
        (fun a b => ScoredRow.risk_score a ≠ ScoredRow.risk_score b) :=
      ((perm_sort_values_desc rows).pairwise_iff (fun h => h.symm)).2 hd
    exact List.Pairwise.sublist (List.take_sublist n _) h1
  have hstrict : (top_risk rows n).Pairwise
      (fun a b => ScoredRow.risk_score b < ScoredRow.risk_score a) :=
    (hsorted.and hne).imp (fun h => lt_of_le_of_ne h.1 (Ne.symm h.2))
  show ((List.insertionSort byScore (top_risk rows n)).reverse).take n' = top_risk rows n
  rw [insertionSort_of_strict_desc _ hstrict, List.reverse_reverse,
    List.take_of_length_le hn]

/-- Witness for C9 on a two-row dataset with distinct scores. -/
theorem C9_top_risk_idempotent_witness :
    top_risk (top_risk [accraHigh, accraLow] 5) 2 = top_risk [accraHigh, accraLow] 5 :=
  C9_top_risk_idempotent [accraHigh, accraLow] 5 2
    (by with_unfolding_all decide) (by with_unfolding_all decide)

theorem sum_map_add_nat {α : Type} (l : List α) (f g : α → Nat) :
    (l.map (fun a => f a + g a)).sum = (l.map f).sum + (l.map g).sum := by
  induction l with
  | nil => rfl
  | cons a t ih =>
    simp only [List.map_cons, List.sum_cons, ih]
    omega

theorem sum_map_indicator_zero (keys : List String) (v : String) (hv : v ∉ keys) :
    (keys.map (fun k => if v = k then 1 else 0)).sum = 0 := by
  induction keys with
  | nil => rfl
  | cons a t ih =>
    have hva : v ≠ a := fun e => hv (e ▸ List.mem_cons_self a t)
    have hvt : v ∉ t := fun h => hv (List.mem_cons_of_mem a h)
    simp [hva, ih hvt]

theorem sum_map_indicator_one (keys : List String) (v : String)
    (hnd : keys.Nodup) (hv : v ∈ keys) :
    (keys.map (fun k => if v = k then 1 else 0)).sum = 1 := by
  induction keys with
  | nil => cases hv
  | cons a t ih =>
    rcases List.mem_cons.1 hv with h | h
    · subst h
      have hvt : v ∉ t := (List.nodup_cons.1 hnd).1
      simp [sum_map_indicator_zero t v hvt]
    · have hna : v ∉ [a] → True := fun _ => trivial
      have hva : v ≠ a := fun e => (List.nodup_cons.1 hnd).1 (e ▸ h)
      simp [hva, ih (List.nodup_cons.1 hnd).2 h]

theorem sum_counts_partition (keys : List String) (rows : List ScoredRow)
    (hnd : keys.Nodup)
    (hcov : ∀ r ∈ rows, ∃ k ∈ keys, r.base.region = some k) :
    (keys.map (fun k => rows.countP (fun r => r.base.region == some k))).sum
      = rows.length := by
  induction rows with
  | nil => simp
  | cons r t ih =>
    obtain ⟨k0, hk0, hr0⟩ := hcov r (List.mem_cons_self r t)
    have iht := ih (fun x hx => hcov x (List.mem_cons_of_mem r hx))
    have hcount : ∀ k ∈ keys,
        (r :: t).countP (fun x => x.base.region == some k) =
          t.countP (fun x => x.base.region == some k) + (if k0 = k then 1 else 0) := by
      intro k _
      rw [List.countP_cons]
      congr 1
      rw [hr0]
      by_cases h : k0 = k <;> simp [beq_iff_eq, h]
    rw [List.map_congr_left hcount, sum_map_add_nat, iht,
      sum_map_indicator_one keys k0 hnd hk0, List.length_cons]

theorem groupKeys_nodup (rows : List ScoredRow) : (groupKeys rows).Nodup :=
  ((List.perm_insertionSort _ _).nodup_iff).2 (List.nodup_dedup _)

theorem mem_groupKeys (rows : List ScoredRow) (k : String) :
    k ∈ groupKeys rows ↔ ∃ r ∈ rows, r.base.region = some k := by
  unfold groupKeys regionValues
  rw [(List.perm_insertionSort _ _).mem_iff, List.mem_dedup]
  exact List.mem_filterMap

theorem region_summary_keys (rows : List ScoredRow) :
    (region_summary rows).map RegionRow.region = groupKeys rows := by
  unfold region_summary
  rw [List.map_map]
  exact (List.map_congr_left (fun k _ => rfl)).trans (List.map_id _)

theorem cast_div_bounds (a b : Nat) (h : a ≤ b) :
    0 ≤ (a : ℚ) / (b : ℚ) ∧ (a : ℚ) / (b : ℚ) ≤ 1 := by
  rcases Nat.eq_zero_or_pos b with hb | hb
  · subst hb
    have ha : a = 0 := Nat.le_zero.1 h
    subst ha
    norm_num
  · refine ⟨div_nonneg (Nat.cast_nonneg a) (Nat.cast_nonneg b), ?_⟩
    rw [div_le_one (by exact_mod_cast hb)]
    exact_mod_cast h

/-- C6: the summary has one row per distinct (non-null) region value; every
summary row's total is the number of records with that region, its average
is the group mean of `risk_score`, and its high-risk share lies in `[0, 1]`;
when every record has a region the totals sum to the dataset size; on the
Accra/Accra/Kumasi scenario with scores 0.8/0.2/0.9 the summary is Accra
(total 2, average 0.5, share 0.5) and Kumasi (total 1, average 0.9,
share 1). -/
theorem C6_region_aggregation (rows : List ScoredRow) :
    ((region_summary rows).map RegionRow.region).Nodup ∧
    (∀ k : String, k ∈ (region_summary rows).map RegionRow.region ↔
      ∃ r ∈ rows, r.base.region = some k) ∧
    (∀ g ∈ region_summary rows,
      RegionRow.total_borrowers g =
        rows.countP (fun r => r.base.region == some (RegionRow.region g)) ∧
      RegionRow.avg_risk_score g =
        ((groupRows rows (RegionRow.region g)).map
            (fun r => ScoredRow.risk_score r)).sum /
          ((groupRows rows (RegionRow.region g)).length : ℚ) ∧
      0 ≤ RegionRow.high_risk_pct g ∧ RegionRow.high_risk_pct g ≤ 1) ∧
    ((∀ r ∈ rows, r.base.region ≠ none) →
      ((region_summary rows).map RegionRow.total_borrowers).sum = rows.length) ∧
    region_summary [accraHigh, accraLow, kumasiHigh] =
      [{ region := "Accra", total_borrowers := 2,
         avg_risk_score := 1/2, high_risk_pct := 1/2 },
       { region := "Kumasi", total_borrowers := 1,
         avg_risk_score := 9/10, high_risk_pct := 1 }] := by
  refine ⟨?_, ?_, ?_, ?_, ?_⟩
  · rw [region_summary_keys]
    exact groupKeys_nodup rows
  · intro k
    rw [region_summary_keys]
    exact mem_groupKeys rows k
  · intro g hg
    obtain ⟨k, _, rfl⟩ := List.mem_map.1 hg
    refine ⟨?_, rfl, ?_, ?_⟩
    · show (groupRows rows k).length = rows.countP (fun r => r.base.region == some k)
      rw [groupRows, List.countP_eq_length_filter]
    · exact (cast_div_bounds _ _ (List.length_filter_le _ _)).1
    · exact (cast_div_bounds _ _ (List.length_filter_le _ _)).2
  · intro hnn
    have hmap : (region_summary rows).map RegionRow.total_borrowers =
        (groupKeys rows).map
          (fun k => rows.countP (fun r => r.base.region == some k)) := by
      unfold region_summary
      rw [List.map_map]
      refine List.map_congr_left (fun k _ => ?_)
      show (groupRows rows k).length = _
      rw [groupRows, List.countP_eq_length_filter]
    rw [hmap]
    apply sum_counts_partition _ _ (groupKeys_nodup rows)
    intro r hr
    cases hrr : r.base.region with
    | none => exact absurd hrr (hnn r hr)
    | some k => exact ⟨k, (mem_groupKeys rows k).2 ⟨r, hr, hrr⟩, rfl⟩
  · with_unfolding_all decide

/-- Witness for C6 on the Accra/Kumasi scenario dataset. -/
theorem C6_region_aggregation_witness :
    ((region_summary [accraHigh, accraLow, kumasiHigh]).map
      RegionRow.total_borrowers).sum =
        ([accraHigh, accraLow, kumasiHigh] : List ScoredRow).length ∧
    0 ≤ RegionRow.high_risk_pct (aggRegion [accraHigh, accraLow, kumasiHigh] "Accra") ∧
    RegionRow.high_risk_pct (aggRegion [accraHigh, accraLow, kumasiHigh] "Accra") ≤ 1 := by
  have h := C6_region_aggregation [accraHigh, accraLow, kumasiHigh]
  have hmem : aggRegion [accraHigh, accraLow, kumasiHigh] "Accra" ∈
      region_summary [accraHigh, accraLow, kumasiHigh] := by
    with_unfolding_all decide
  have hg := h.2.2.1 _ hmem
  exact ⟨h.2.2.2.1 (by decide), hg.2.2.1, hg.2.2.2⟩

end CreditRisk
